import Mathlib

/-!
Shallow embedding of the `liquidity_acceleration_token` Anchor program
(`src/liquidity_acceleration_token/src/lib.rs`).

u64 values are modelled as `Nat` with explicit checked arithmetic that fails
(returns `none`) when the mathematical result leaves `[0, 2^64)`; i64 values
are modelled as `Int` with checked arithmetic failing outside
`[-2^63, 2^63)`.  Rust's `as u64` cast on an i64 is two's-complement
reinterpretation, i.e. reduction mod `2^64`.

Each instruction is a function from the loaded account records (plus the
clock value `Clock::get()?.unix_timestamp`) to a `TxResult`: `ok` carries the
updated records and the amount handed to the external token primitive,
`err` carries the program's error code, and `panicked` models a Rust panic
(`Option::unwrap` on `None`).  The runtime aborts the whole transaction on
`err`/`panicked`, so a non-`ok` result means no record mutation persists.
-/

namespace LAT

def U64_MOD : Nat := 2 ^ 64

def I64_MIN : Int := -(2 ^ 63)

def I64_MAX : Int := 2 ^ 63 - 1

/-- `u64::checked_add`. -/
def u64ckAdd (a b : Nat) : Option Nat :=
  if a + b < U64_MOD then some (a + b) else none

/-- `u64::checked_mul`. -/
def u64ckMul (a b : Nat) : Option Nat :=
  if a * b < U64_MOD then some (a * b) else none

/-- `u64::checked_div` (fails only on division by zero). -/
def u64ckDiv (a b : Nat) : Option Nat :=
  if b = 0 then none else some (a / b)

/-- `u64::checked_sub`. -/
def u64ckSub (a b : Nat) : Option Nat :=
  if b ≤ a then some (a - b) else none

/-- `i64::checked_add`. -/
def i64ckAdd (a b : Int) : Option Int :=
  if I64_MIN ≤ a + b ∧ a + b ≤ I64_MAX then some (a + b) else none

/-- `i64::checked_sub`. -/
def i64ckSub (a b : Int) : Option Int :=
  if I64_MIN ≤ a - b ∧ a - b ≤ I64_MAX then some (a - b) else none

/-- Rust `as u64` on an i64 value: two's-complement reinterpretation. -/
def i64AsU64 (a : Int) : Nat := (a % (2 ^ 64 : Int)).toNat

/-- `ErrorCode` enum of the program (lib.rs lines 401-413). -/
inductive ErrorCode where
  | CalculationError
  | InsufficientStake
  | EpochNotEnded
  | NoPendingRewards
  | VestingPeriodNotCompleted
deriving Repr, DecidableEq

/-- Outcome of one instruction: success, an Anchor error, or a Rust panic. -/
inductive TxResult (α : Type) where
  | ok : α → TxResult α
  | err : ErrorCode → TxResult α
  | panicked : TxResult α
deriving Repr, DecidableEq

/-- `.ok_or(ErrorCode::CalculationError)?` on an `Option`. -/
def getOr {α β : Type} (o : Option α) (k : α → TxResult β) : TxResult β :=
  match o with
  | some a => k a
  | none => .err .CalculationError

/-- `.unwrap()` on an `Option`: panics on `None`. -/
def unwrapThen {α β : Type} (o : Option α) (k : α → TxResult β) : TxResult β :=
  match o with
  | some a => k a
  | none => .panicked

/-- `ProgramState` (lib.rs lines 243-258); the two pubkeys and the two bump
bytes are irrelevant to the arithmetic and omitted. -/
structure ProgramState where
  trade_reward_rate : Nat
  stake_reward_rate : Nat
  total_trades : Nat
  epoch_trade_volume : Nat
  trade_epoch_duration : Int
  pool_trading_volume : Nat
  pool_volume_threshold : Nat
  pool_boost_multiplier : Nat
deriving Repr, DecidableEq

/-- `TraderStats` (lib.rs lines 292-298). -/
structure TraderStats where
  trade_count : Nat
  total_volume : Nat
  pending_trade_rewards : Nat
  last_claim : Int
deriving Repr, DecidableEq

/-- `Stake` (lib.rs lines 333-338). -/
structure Stake where
  amount : Nat
  last_updated : Int
  stake_start : Int
deriving Repr, DecidableEq

/-- Lines 74-77 of `record_trade`: the last-claim timestamp is initialised
to the current time on the first trade only (`last_claim == 0`). -/
def initLastClaim (stats : TraderStats) (now : Int) : Int :=
  if stats.last_claim = 0 then now else stats.last_claim

/-- `record_trade` (lib.rs lines 43-80).  The multiplier reads
`state.epoch_trade_volume` after the in-place update at line 48, i.e. the
value including the current trade's volume; the source's let-bound
`multiplier` is inlined at its single use site. -/
def record_trade (state : ProgramState) (stats : TraderStats)
    (trade_volume : Nat) (now : Int) : TxResult (ProgramState × TraderStats) :=
  getOr (u64ckAdd state.total_trades 1) fun total_trades =>
  getOr (u64ckAdd state.epoch_trade_volume trade_volume) fun epoch_trade_volume =>
  getOr (u64ckAdd state.pool_trading_volume trade_volume) fun pool_trading_volume =>
  getOr (u64ckAdd stats.trade_count 1) fun trade_count =>
  getOr (u64ckAdd stats.total_volume trade_volume) fun total_volume =>
  getOr ((u64ckMul trade_volume state.trade_reward_rate).bind fun r =>
         (u64ckMul r (if epoch_trade_volume < state.pool_volume_threshold
                      then 150 else 100)).bind fun r2 =>
         u64ckDiv r2 100) fun reward =>
  getOr (u64ckAdd stats.pending_trade_rewards reward) fun pending =>
  .ok ({ state with
           total_trades := total_trades
           epoch_trade_volume := epoch_trade_volume
           pool_trading_volume := pool_trading_volume },
       { stats with
           trade_count := trade_count
           total_volume := total_volume
           pending_trade_rewards := pending
           last_claim := initLastClaim stats now })

/-- `claim_trade_rewards` (lib.rs lines 83-119).  On success returns the
updated `TraderStats` together with the amount passed to `token::mint_to`.
Line 88 of the source calls `.unwrap()` on the checked subtraction, hence
the `unwrapThen` (panic on overflow) rather than `CalculationError`. -/
def claim_trade_rewards (state : ProgramState) (stats : TraderStats)
    (current_time : Int) : TxResult (TraderStats × Nat) :=
  unwrapThen (i64ckSub current_time stats.last_claim) fun diff =>
  if diff < state.trade_epoch_duration then .err .EpochNotEnded
  else if stats.pending_trade_rewards = 0 then .err .NoPendingRewards
  else .ok ({ stats with pending_trade_rewards := 0, last_claim := current_time },
            stats.pending_trade_rewards)

/-- `stake_lat` (lib.rs lines 123-144).  The external token transfer moves
`amount`; both `Clock::get()` calls in one instruction yield the same slot
timestamp `now`. -/
def stake_lat (stake : Stake) (amount : Nat) (now : Int) : TxResult Stake :=
  getOr (u64ckAdd stake.amount amount) fun amt =>
  .ok { amount := amt
        last_updated := now
        stake_start := if stake.stake_start = 0 then now else stake.stake_start }

/-- Lines 158-193 of `claim_stake_rewards`: everything after the vesting
gate.  On success returns the updated `Stake` together with the amount
passed to `token::mint_to`.  Line 158 casts the checked i64 difference to
u64 with `as`, modelled by `i64AsU64` (wrapping). -/
def claim_stake_body (state : ProgramState) (stake : Stake)
    (current_time : Int) : TxResult (Stake × Nat) :=
  getOr (i64ckSub current_time stake.last_updated) fun d =>
  getOr (if state.pool_trading_volume > state.pool_volume_threshold then
           (u64ckMul state.stake_reward_rate state.pool_boost_multiplier).bind fun r =>
           u64ckDiv r 100
         else some state.stake_reward_rate) fun effective_rate =>
  getOr ((u64ckMul stake.amount effective_rate).bind fun r =>
         u64ckMul r (i64AsU64 d)) fun reward =>
  .ok ({ stake with last_updated := current_time }, reward)

/-- `claim_stake_rewards` (lib.rs lines 149-194): the vesting gate of
lines 153-156 followed by `claim_stake_body` (the rest of the function). -/
def claim_stake_rewards (state : ProgramState) (stake : Stake)
    (current_time : Int) : TxResult (Stake × Nat) :=
  getOr (i64ckAdd stake.stake_start 604800) fun vest_end =>
  if current_time < vest_end then .err .VestingPeriodNotCompleted
  else claim_stake_body state stake current_time

/-- `withdraw_stake` (lib.rs lines 197-218).  On success returns the updated
`Stake` together with the amount transferred back out of the vault. -/
def withdraw_stake (stake : Stake) (amount : Nat) : TxResult (Stake × Nat) :=
  if amount ≤ stake.amount then
    getOr (u64ckSub stake.amount amount) fun amt =>
    .ok ({ stake with amount := amt }, amount)
  else .err .InsufficientStake

/-! ### Inversion lemmas for the checked arithmetic -/

theorem u64ckAdd_some {a b c : Nat} (h : u64ckAdd a b = some c) :
    c = a + b ∧ a + b < U64_MOD := by
  unfold u64ckAdd at h
  split at h
  · exact ⟨(Option.some.injEq _ _ ▸ h).symm, by assumption⟩
  · exact absurd h (by simp)

theorem u64ckMul_some {a b c : Nat} (h : u64ckMul a b = some c) :
    c = a * b ∧ a * b < U64_MOD := by
  unfold u64ckMul at h
  split at h
  · exact ⟨(Option.some.injEq _ _ ▸ h).symm, by assumption⟩
  · exact absurd h (by simp)

theorem u64ckDiv_some {a b c : Nat} (h : u64ckDiv a b = some c) :
    c = a / b ∧ b ≠ 0 := by
  unfold u64ckDiv at h
  split at h
  · exact absurd h (by simp)
  · exact ⟨(Option.some.injEq _ _ ▸ h).symm, by assumption⟩

theorem u64ckSub_some {a b c : Nat} (h : u64ckSub a b = some c) :
    c = a - b ∧ b ≤ a := by
  unfold u64ckSub at h
  split at h
  · exact ⟨(Option.some.injEq _ _ ▸ h).symm, by assumption⟩
  · exact absurd h (by simp)

theorem i64ckAdd_some {a b c : Int} (h : i64ckAdd a b = some c) :
    c = a + b ∧ I64_MIN ≤ a + b ∧ a + b ≤ I64_MAX := by
  unfold i64ckAdd at h
  split at h
  · exact ⟨(Option.some.injEq _ _ ▸ h).symm, by assumption⟩
  · exact absurd h (by simp)

theorem i64ckSub_some {a b c : Int} (h : i64ckSub a b = some c) :
    c = a - b ∧ I64_MIN ≤ a - b ∧ a - b ≤ I64_MAX := by
  unfold i64ckSub at h
  split at h
  · exact ⟨(Option.some.injEq _ _ ▸ h).symm, by assumption⟩
  · exact absurd h (by simp)

theorem i64ckAdd_eq_some {a b : Int} (h1 : I64_MIN ≤ a + b) (h2 : a + b ≤ I64_MAX) :
    i64ckAdd a b = some (a + b) := by
  unfold i64ckAdd
  simp [h1, h2]

theorem i64ckSub_eq_some {a b : Int} (h1 : I64_MIN ≤ a - b) (h2 : a - b ≤ I64_MAX) :
    i64ckSub a b = some (a - b) := by
  unfold i64ckSub
  simp [h1, h2]

/-- A nonnegative i64 value is unchanged by the `as u64` cast. -/
theorem i64AsU64_of_nonneg {a : Int} (h0 : 0 ≤ a) (h1 : a ≤ I64_MAX) :
    i64AsU64 a = a.toNat := by
  unfold i64AsU64
  rw [Int.emod_eq_of_lt h0 (by unfold I64_MAX at h1; omega)]

/-! ### Inversion lemmas for the instructions -/

/-- Full characterisation of a successful `record_trade`. -/
theorem record_trade_ok {state : ProgramState} {stats : TraderStats}
    {v : Nat} {now : Int} {s' : ProgramState} {st' : TraderStats}
    (h : record_trade state stats v now = .ok (s', st')) :
    s' = { state with
             total_trades := state.total_trades + 1
             epoch_trade_volume := state.epoch_trade_volume + v
             pool_trading_volume := state.pool_trading_volume + v } ∧
    st' = { stats with
              trade_count := stats.trade_count + 1
              total_volume := stats.total_volume + v
              pending_trade_rewards := stats.pending_trade_rewards +
                v * state.trade_reward_rate *
                  (if state.epoch_trade_volume + v < state.pool_volume_threshold
                   then 150 else 100) / 100
              last_claim := initLastClaim stats now } := by
  unfold record_trade getOr at h
  split at h <;> rename_i h1 <;> [skip; exact absurd h (by simp)]
  obtain ⟨rfl, -⟩ := u64ckAdd_some h1
  split at h <;> rename_i h2 <;> [skip; exact absurd h (by simp)]
  obtain ⟨rfl, -⟩ := u64ckAdd_some h2
  split at h <;> rename_i h3 <;> [skip; exact absurd h (by simp)]
  obtain ⟨rfl, -⟩ := u64ckAdd_some h3
  split at h <;> rename_i h4 <;> [skip; exact absurd h (by simp)]
  obtain ⟨rfl, -⟩ := u64ckAdd_some h4
  split at h <;> rename_i h5 <;> [skip; exact absurd h (by simp)]
  obtain ⟨rfl, -⟩ := u64ckAdd_some h5
  beta_reduce at h
  split at h <;> rename_i h6 <;> [skip; exact absurd h (by simp)]
  rw [Option.bind_eq_some] at h6
  obtain ⟨r1, hr1, h6⟩ := h6
  rw [Option.bind_eq_some] at h6
  obtain ⟨r2, hr2, h6⟩ := h6
  obtain ⟨rfl, -⟩ := u64ckMul_some hr1
  obtain ⟨rfl, -⟩ := u64ckMul_some hr2
  obtain ⟨rfl, -⟩ := u64ckDiv_some h6
  split at h <;> rename_i h7 <;> [skip; exact absurd h (by simp)]
  obtain ⟨rfl, -⟩ := u64ckAdd_some h7
  rw [TxResult.ok.injEq, Prod.mk.injEq] at h
  exact ⟨h.1.symm, h.2.symm⟩

/-- Full characterisation of a successful `claim_trade_rewards`. -/
theorem claim_trade_rewards_ok {state : ProgramState} {stats : TraderStats}
    {t : Int} {st' : TraderStats} {r : Nat}
    (h : claim_trade_rewards state stats t = .ok (st', r)) :
    st' = { stats with pending_trade_rewards := 0, last_claim := t } ∧
    r = stats.pending_trade_rewards ∧
    stats.pending_trade_rewards ≠ 0 ∧
    state.trade_epoch_duration ≤ t - stats.last_claim ∧
    I64_MIN ≤ t - stats.last_claim ∧ t - stats.last_claim ≤ I64_MAX := by
  unfold claim_trade_rewards unwrapThen at h
  split at h <;> rename_i h1 <;> [skip; exact absurd h (by simp)]
  obtain ⟨rfl, hlo, hhi⟩ := i64ckSub_some h1
  beta_reduce at h
  split at h <;> rename_i h2
  · exact absurd h (by simp)
  split at h <;> rename_i h3
  · exact absurd h (by simp)
  rw [TxResult.ok.injEq, Prod.mk.injEq] at h
  exact ⟨h.1.symm, h.2.symm, h3, by omega, hlo, hhi⟩

/-- `claim_trade_rewards` hits the epoch gate first: with an in-range
timestamp difference below the epoch duration it returns `EpochNotEnded`. -/
theorem claim_trade_rewards_epoch_err {state : ProgramState} {stats : TraderStats}
    {t : Int}
    (hlo : I64_MIN ≤ t - stats.last_claim) (hhi : t - stats.last_claim ≤ I64_MAX)
    (hd : t - stats.last_claim < state.trade_epoch_duration) :
    claim_trade_rewards state stats t = .err .EpochNotEnded := by
  unfold claim_trade_rewards unwrapThen
  rw [i64ckSub_eq_some hlo hhi]
  simp [hd]

/-- `claim_trade_rewards` with the epoch elapsed and nothing pending
returns `NoPendingRewards`. -/
theorem claim_trade_rewards_nopending_err {state : ProgramState}
    {stats : TraderStats} {t : Int}
    (hlo : I64_MIN ≤ t - stats.last_claim) (hhi : t - stats.last_claim ≤ I64_MAX)
    (hd : state.trade_epoch_duration ≤ t - stats.last_claim)
    (hp : stats.pending_trade_rewards = 0) :
    claim_trade_rewards state stats t = .err .NoPendingRewards := by
  unfold claim_trade_rewards unwrapThen
  rw [i64ckSub_eq_some hlo hhi]
  simp [hp, not_lt.mpr hd]

/-- Full characterisation of a successful `claim_stake_rewards`. -/
theorem claim_stake_rewards_ok {state : ProgramState} {stake : Stake}
    {t : Int} {stk' : Stake} {r : Nat}
    (h : claim_stake_rewards state stake t = .ok (stk', r)) :
    stk' = { stake with last_updated := t } ∧
    r = stake.amount *
        (if state.pool_trading_volume > state.pool_volume_threshold
         then state.stake_reward_rate * state.pool_boost_multiplier / 100
         else state.stake_reward_rate) *
        i64AsU64 (t - stake.last_updated) ∧
    stake.stake_start + 604800 ≤ t ∧
    I64_MIN ≤ t - stake.last_updated ∧ t - stake.last_updated ≤ I64_MAX := by
  unfold claim_stake_rewards claim_stake_body getOr at h
  split at h <;> rename_i h1 <;> [skip; exact absurd h (by simp)]
  obtain ⟨rfl, -, -⟩ := i64ckAdd_some h1
  beta_reduce at h
  split at h <;> rename_i h2
  · exact absurd h (by simp)
  split at h <;> rename_i h3 <;> [skip; exact absurd h (by simp)]
  obtain ⟨rfl, hlo, hhi⟩ := i64ckSub_some h3
  split at h <;> rename_i h4 <;> [skip; exact absurd h (by simp)]
  split at h <;> rename_i h5 <;> [skip; exact absurd h (by simp)]
  rw [Option.bind_eq_some] at h5
  obtain ⟨m1, hm1, h5⟩ := h5
  obtain ⟨rfl, -⟩ := u64ckMul_some hm1
  obtain ⟨rfl, -⟩ := u64ckMul_some h5
  rw [TxResult.ok.injEq, Prod.mk.injEq] at h
  refine ⟨h.1.symm, ?_, by omega, hlo, hhi⟩
  rw [← h.2]
  congr 1
  split at h4 <;> rename_i hvol
  · rw [Option.bind_eq_some] at h4
    obtain ⟨b1, hb1, h4⟩ := h4
    obtain ⟨rfl, -⟩ := u64ckMul_some hb1
    obtain ⟨rfl, -⟩ := u64ckDiv_some h4
    simp [hvol]
  · rw [Option.some.injEq] at h4
    simp [hvol, ← h4]

/-- The post-vesting part of `claim_stake_rewards` only ever produces
success or `CalculationError`, never the vesting error. -/
theorem claim_stake_body_ne_vesting (state : ProgramState) (stake : Stake)
    (t : Int) :
    claim_stake_body state stake t ≠ .err .VestingPeriodNotCompleted := by
  unfold claim_stake_body getOr
  split <;> rename_i h1
  · split <;> rename_i h2
    · beta_reduce
      split <;> rename_i h3
      · simp
      · simp
    · simp
  · simp

/-- The vesting gate of `claim_stake_rewards`, for i64-representable
deadlines: the call returns `VestingPeriodNotCompleted` exactly when the
current time is before `stake_start + 604800`, whatever the staked amount. -/
theorem claim_stake_rewards_vesting {state : ProgramState} {stake : Stake}
    {t : Int}
    (hlo : I64_MIN ≤ stake.stake_start)
    (hhi : stake.stake_start + 604800 ≤ I64_MAX) :
    claim_stake_rewards state stake t = .err .VestingPeriodNotCompleted ↔
      t < stake.stake_start + 604800 := by
  unfold claim_stake_rewards
  rw [i64ckAdd_eq_some (by unfold I64_MIN at hlo ⊢; omega) hhi]
  unfold getOr
  dsimp only
  constructor
  · intro h
    by_contra hc
    rw [if_neg hc] at h
    exact claim_stake_body_ne_vesting state stake t h
  · intro h
    rw [if_pos h]

/-- Full characterisation of a successful `stake_lat`. -/
theorem stake_lat_ok {stake : Stake} {amount : Nat} {now : Int} {stk' : Stake}
    (h : stake_lat stake amount now = .ok stk') :
    stk' = { amount := stake.amount + amount
             last_updated := now
             stake_start := if stake.stake_start = 0 then now
                            else stake.stake_start } := by
  unfold stake_lat getOr at h
  split at h <;> rename_i h1 <;> [skip; exact absurd h (by simp)]
  obtain ⟨rfl, -⟩ := u64ckAdd_some h1
  rw [TxResult.ok.injEq] at h
  exact h.symm

/-- Full characterisation of `withdraw_stake` in both branches. -/
theorem withdraw_stake_spec (stake : Stake) (amount : Nat) :
    withdraw_stake stake amount =
      if amount ≤ stake.amount then
        .ok ({ stake with amount := stake.amount - amount }, amount)
      else .err .InsufficientStake := by
  unfold withdraw_stake getOr u64ckSub
  split <;> rename_i h1
  · simp [h1]
  · rfl

/-! ### Sequences of operations

For the cross-operation invariants the records of one participant together
with the global state form a `World`; each instruction is one `Op`.  The
runtime aborts a failing transaction, so a non-`ok` step leaves the world
unchanged (`applyOp`). -/

structure World where
  state : ProgramState
  stats : TraderStats
  stk : Stake
deriving Repr, DecidableEq

inductive Op where
  | recordTrade (v : Nat) (t : Int)
  | claimTrade (t : Int)
  | stakeLat (a : Nat) (t : Int)
  | claimStake (t : Int)
  | withdrawStake (a : Nat)
deriving Repr, DecidableEq

/-- One instruction, acting on the whole world. -/
def stepW (w : World) : Op → TxResult World
  | .recordTrade v t =>
    match record_trade w.state w.stats v t with
    | .ok (s, st) => .ok { w with state := s, stats := st }
    | .err e => .err e
    | .panicked => .panicked
  | .claimTrade t =>
    match claim_trade_rewards w.state w.stats t with
    | .ok (st, _) => .ok { w with stats := st }
    | .err e => .err e
    | .panicked => .panicked
  | .stakeLat a t =>
    match stake_lat w.stk a t with
    | .ok sk => .ok { w with stk := sk }
    | .err e => .err e
    | .panicked => .panicked
  | .claimStake t =>
    match claim_stake_rewards w.state w.stk t with
    | .ok (sk, _) => .ok { w with stk := sk }
    | .err e => .err e
    | .panicked => .panicked
  | .withdrawStake a =>
    match withdraw_stake w.stk a with
    | .ok (sk, _) => .ok { w with stk := sk }
    | .err e => .err e
    | .panicked => .panicked

/-- A transaction: a failed instruction aborts and leaves every record as
it was. -/
def applyOp (w : World) (op : Op) : World :=
  match stepW w op with
  | .ok w' => w'
  | _ => w

/-- Run a sequence of transactions. -/
def runOps (w : World) (ops : List Op) : World :=
  ops.foldl applyOp w

/-- The five monotone counters, compared pointwise. -/
def countersLE (a b : World) : Prop :=
  a.state.total_trades ≤ b.state.total_trades ∧
  a.state.epoch_trade_volume ≤ b.state.epoch_trade_volume ∧
  a.state.pool_trading_volume ≤ b.state.pool_trading_volume ∧
  a.stats.trade_count ≤ b.stats.trade_count ∧
  a.stats.total_volume ≤ b.stats.total_volume

theorem countersLE_refl (a : World) : countersLE a a :=
  ⟨le_refl _, le_refl _, le_refl _, le_refl _, le_refl _⟩

theorem countersLE_trans {a b c : World} (h1 : countersLE a b)
    (h2 : countersLE b c) : countersLE a c :=
  ⟨h1.1.trans h2.1, h1.2.1.trans h2.2.1, h1.2.2.1.trans h2.2.2.1,
   h1.2.2.2.1.trans h2.2.2.2.1, h1.2.2.2.2.trans h2.2.2.2.2⟩

/-- Case analysis of one `recordTrade` transaction. -/
theorem applyOp_recordTrade (w : World) (v : Nat) (t : Int) :
    (∃ s st, record_trade w.state w.stats v t = .ok (s, st) ∧
      applyOp w (.recordTrade v t) = { w with state := s, stats := st }) ∨
    applyOp w (.recordTrade v t) = w := by
  simp only [applyOp, stepW]
  rcases hr : record_trade w.state w.stats v t with ⟨s, st⟩ | e | _
  · exact .inl ⟨s, st, rfl, rfl⟩
  · exact .inr rfl
  · exact .inr rfl

/-- Case analysis of one `claimTrade` transaction. -/
theorem applyOp_claimTrade (w : World) (t : Int) :
    (∃ st r, claim_trade_rewards w.state w.stats t = .ok (st, r) ∧
      applyOp w (.claimTrade t) = { w with stats := st }) ∨
    applyOp w (.claimTrade t) = w := by
  simp only [applyOp, stepW]
  rcases hr : claim_trade_rewards w.state w.stats t with ⟨st, r⟩ | e | _
  · exact .inl ⟨st, r, rfl, rfl⟩
  · exact .inr rfl
  · exact .inr rfl

/-- Case analysis of one `stakeLat` transaction. -/
theorem applyOp_stakeLat (w : World) (a : Nat) (t : Int) :
    (∃ sk, stake_lat w.stk a t = .ok sk ∧
      applyOp w (.stakeLat a t) = { w with stk := sk }) ∨
    applyOp w (.stakeLat a t) = w := by
  simp only [applyOp, stepW]
  rcases hr : stake_lat w.stk a t with sk | e | _
  · exact .inl ⟨sk, rfl, rfl⟩
  · exact .inr rfl
  · exact .inr rfl

/-- Case analysis of one `claimStake` transaction. -/
theorem applyOp_claimStake (w : World) (t : Int) :
    (∃ sk r, claim_stake_rewards w.state w.stk t = .ok (sk, r) ∧
      applyOp w (.claimStake t) = { w with stk := sk }) ∨
    applyOp w (.claimStake t) = w := by
  simp only [applyOp, stepW]
  rcases hr : claim_stake_rewards w.state w.stk t with ⟨sk, r⟩ | e | _
  · exact .inl ⟨sk, r, rfl, rfl⟩
  · exact .inr rfl
  · exact .inr rfl

/-- Case analysis of one `withdrawStake` transaction. -/
theorem applyOp_withdrawStake (w : World) (a : Nat) :
    (∃ sk, withdraw_stake w.stk a = .ok (sk, a) ∧
      applyOp w (.withdrawStake a) = { w with stk := sk }) ∨
    applyOp w (.withdrawStake a) = w := by
  simp only [applyOp, stepW]
  rcases hr : withdraw_stake w.stk a with ⟨sk, r⟩ | e | _
  · have hr2 := hr
    rw [withdraw_stake_spec] at hr2
    split at hr2 <;> rename_i hc
    · rw [TxResult.ok.injEq, Prod.mk.injEq] at hr2
      exact .inl ⟨sk, by rw [hr2.2], rfl⟩
    · exact absurd hr2 (by simp)
  · exact .inr rfl
  · exact .inr rfl

/-- Every single transaction leaves the five counters no smaller. -/
theorem applyOp_countersLE (w : World) (op : Op) :
    countersLE w (applyOp w op) := by
  cases op with
  | recordTrade v t =>
    rcases applyOp_recordTrade w v t with ⟨s, st, hr, heq⟩ | heq
    · obtain ⟨hs, hst⟩ := record_trade_ok hr
      rw [heq, hs, hst]
      unfold countersLE
      dsimp only
      omega
    · rw [heq]; exact countersLE_refl w
  | claimTrade t =>
    rcases applyOp_claimTrade w t with ⟨st, r, hr, heq⟩ | heq
    · obtain ⟨hst, -⟩ := claim_trade_rewards_ok hr
      rw [heq, hst]
      unfold countersLE
      dsimp only
      omega
    · rw [heq]; exact countersLE_refl w
  | stakeLat a t =>
    rcases applyOp_stakeLat w a t with ⟨sk, hr, heq⟩ | heq
    · rw [heq]
      unfold countersLE
      dsimp only
      omega
    · rw [heq]; exact countersLE_refl w
  | claimStake t =>
    rcases applyOp_claimStake w t with ⟨sk, r, hr, heq⟩ | heq
    · rw [heq]
      unfold countersLE
      dsimp only
      omega
    · rw [heq]; exact countersLE_refl w
  | withdrawStake a =>
    rcases applyOp_withdrawStake w a with ⟨sk, hr, heq⟩ | heq
    · rw [heq]
      unfold countersLE
      dsimp only
      omega
    · rw [heq]; exact countersLE_refl w

/-- Over any sequence of transactions the five counters never decrease. -/
theorem runOps_countersLE (w : World) (ops : List Op) :
    countersLE w (runOps w ops) := by
  induction ops generalizing w with
  | nil => exact countersLE_refl w
  | cons op rest ih =>
    exact countersLE_trans (applyOp_countersLE w op) (ih (applyOp w op))

/-- `pending_trade_rewards` can drop only via `claimTrade`, and then it
drops to zero. -/
theorem pending_decrease_only_claim (w : World) (op : Op)
    (h : (applyOp w op).stats.pending_trade_rewards <
         w.stats.pending_trade_rewards) :
    (∃ t, op = .claimTrade t) ∧
    (applyOp w op).stats.pending_trade_rewards = 0 := by
  cases op with
  | recordTrade v t =>
    exfalso
    rcases applyOp_recordTrade w v t with ⟨s, st, hr, heq⟩ | heq
    · obtain ⟨-, hst⟩ := record_trade_ok hr
      rw [heq, hst] at h
      dsimp only at h
      omega
    · rw [heq] at h; omega
  | claimTrade t =>
    refine ⟨⟨t, rfl⟩, ?_⟩
    rcases applyOp_claimTrade w t with ⟨st, r, hr, heq⟩ | heq
    · obtain ⟨hst, -⟩ := claim_trade_rewards_ok hr
      rw [heq, hst]
    · rw [heq] at h; omega
  | stakeLat a t =>
    exfalso
    rcases applyOp_stakeLat w a t with ⟨sk, hr, heq⟩ | heq
    · rw [heq] at h; dsimp only at h; omega
    · rw [heq] at h; omega
  | claimStake t =>
    exfalso
    rcases applyOp_claimStake w t with ⟨sk, r, hr, heq⟩ | heq
    · rw [heq] at h; dsimp only at h; omega
    · rw [heq] at h; omega
  | withdrawStake a =>
    exfalso
    rcases applyOp_withdrawStake w a with ⟨sk, hr, heq⟩ | heq
    · rw [heq] at h; dsimp only at h; omega
    · rw [heq] at h; omega

/-- `Stake.amount` can drop only via `withdrawStake`. -/
theorem stake_decrease_only_withdraw (w : World) (op : Op)
    (h : (applyOp w op).stk.amount < w.stk.amount) :
    ∃ a, op = .withdrawStake a := by
  cases op with
  | recordTrade v t =>
    exfalso
    rcases applyOp_recordTrade w v t with ⟨s, st, hr, heq⟩ | heq
    · rw [heq] at h; dsimp only at h; omega
    · rw [heq] at h; omega
  | claimTrade t =>
    exfalso
    rcases applyOp_claimTrade w t with ⟨st, r, hr, heq⟩ | heq
    · rw [heq] at h; dsimp only at h; omega
    · rw [heq] at h; omega
  | stakeLat a t =>
    exfalso
    rcases applyOp_stakeLat w a t with ⟨sk, hr, heq⟩ | heq
    · rw [heq, stake_lat_ok hr] at h
      dsimp only at h
      omega
    · rw [heq] at h; omega
  | claimStake t =>
    exfalso
    rcases applyOp_claimStake w t with ⟨sk, r, hr, heq⟩ | heq
    · obtain ⟨hsk, -⟩ := claim_stake_rewards_ok hr
      rw [heq, hsk] at h
      dsimp only at h
      omega
    · rw [heq] at h; omega
  | withdrawStake a => exact ⟨a, rfl⟩

/-- A claim retried at the very time recorded in `last_claim` (an immediate
repeat) fails: on the epoch gate when the epoch duration is positive,
otherwise on the empty pending balance. -/
theorem claim_trade_rewards_repeat (state : ProgramState) (stats2 : TraderStats)
    (t : Int) (hl : stats2.last_claim = t)
    (hp : stats2.pending_trade_rewards = 0) :
    claim_trade_rewards state stats2 t =
      (if 0 < state.trade_epoch_duration then .err .EpochNotEnded
       else .err .NoPendingRewards) := by
  have h0 : t - stats2.last_claim = 0 := by rw [hl]; omega
  split <;> rename_i hdur
  · exact claim_trade_rewards_epoch_err (by rw [h0]; decide) (by rw [h0]; decide)
      (by rw [h0]; exact hdur)
  · exact claim_trade_rewards_nopending_err (by rw [h0]; decide) (by rw [h0]; decide)
      (by rw [h0]; omega) hp

/-! ### Claim theorems -/

/-- C1: for every call to `record_trade` with volume `v` that does not
overflow, the reward added to the participant's pending trade rewards is
`v * tradeRewardRate * m / 100` with floor division, where `m = 150` if the
epoch trade volume after adding `v` is strictly below the pool volume
threshold and `m = 100` otherwise. -/
theorem C1_record_trade_reward (state : ProgramState) (stats : TraderStats)
    (v : Nat) (now : Int) (s' : ProgramState) (st' : TraderStats)
    (h : record_trade state stats v now = .ok (s', st')) :
    st'.pending_trade_rewards = stats.pending_trade_rewards +
      v * state.trade_reward_rate *
        (if state.epoch_trade_volume + v < state.pool_volume_threshold
         then 150 else 100) / 100 := by
  obtain ⟨-, hst⟩ := record_trade_ok h
  rw [hst]

def c1S0 : ProgramState := ⟨2, 0, 0, 0, 0, 0, 1000, 0⟩
def c1T0 : TraderStats := ⟨0, 0, 0, 0⟩
def c1S1 : ProgramState := ⟨2, 0, 1, 400, 0, 400, 1000, 0⟩
def c1T1 : TraderStats := ⟨1, 400, 1200, 7⟩
def c1S2 : ProgramState := ⟨2, 0, 2, 800, 0, 800, 1000, 0⟩
def c1T2 : TraderStats := ⟨2, 800, 2400, 7⟩
def c1S3 : ProgramState := ⟨2, 0, 3, 1200, 0, 1200, 1000, 0⟩
def c1T3 : TraderStats := ⟨3, 1200, 3200, 7⟩

/-- C1, witness: `poolVolumeThreshold = 1000`, `tradeRewardRate = 2`, three
trades of volume 400 accrue 1200, then 1200, then 800 (pending balances
1200, 2400, 3200). -/
theorem C1_record_trade_reward_witness :
    record_trade c1S0 c1T0 400 7 = .ok (c1S1, c1T1) ∧
    c1T1.pending_trade_rewards = c1T0.pending_trade_rewards +
      400 * c1S0.trade_reward_rate *
        (if c1S0.epoch_trade_volume + 400 < c1S0.pool_volume_threshold
         then 150 else 100) / 100 ∧
    record_trade c1S1 c1T1 400 7 = .ok (c1S2, c1T2) ∧
    c1T2.pending_trade_rewards = c1T1.pending_trade_rewards +
      400 * c1S1.trade_reward_rate *
        (if c1S1.epoch_trade_volume + 400 < c1S1.pool_volume_threshold
         then 150 else 100) / 100 ∧
    record_trade c1S2 c1T2 400 7 = .ok (c1S3, c1T3) ∧
    c1T3.pending_trade_rewards = c1T2.pending_trade_rewards +
      400 * c1S2.trade_reward_rate *
        (if c1S2.epoch_trade_volume + 400 < c1S2.pool_volume_threshold
         then 150 else 100) / 100 ∧
    c1T1.pending_trade_rewards = 1200 ∧
    c1T2.pending_trade_rewards = 2400 ∧
    c1T3.pending_trade_rewards = 3200 :=
  ⟨by decide, C1_record_trade_reward c1S0 c1T0 400 7 c1S1 c1T1 (by decide),
   by decide, C1_record_trade_reward c1S1 c1T1 400 7 c1S2 c1T2 (by decide),
   by decide, C1_record_trade_reward c1S2 c1T2 400 7 c1S3 c1T3 (by decide),
   by decide, by decide, by decide⟩

/-- C2: every successful `claim_stake_rewards` (under a monotone clock,
`lastUpdated ≤ now`) mints `amount * effectiveRate * (now - lastUpdated)`,
where the effective rate carries the boost multiplier exactly when
`poolTradingVolume > poolVolumeThreshold`, and sets `lastUpdated := now`;
a zero reward is an ordinary success. -/
theorem C2_claim_stake_reward_formula (state : ProgramState) (stake : Stake)
    (t : Int) (stk' : Stake) (r : Nat)
    (hmono : stake.last_updated ≤ t)
    (h : claim_stake_rewards state stake t = .ok (stk', r)) :
    r = stake.amount *
        (if state.pool_trading_volume > state.pool_volume_threshold
         then state.stake_reward_rate * state.pool_boost_multiplier / 100
         else state.stake_reward_rate) * (t - stake.last_updated).toNat ∧
    stk' = { stake with last_updated := t } := by
  obtain ⟨hsk, hr, -, hlo, hhi⟩ := claim_stake_rewards_ok h
  refine ⟨?_, hsk⟩
  rw [hr, i64AsU64_of_nonneg (by omega) hhi]

def c2S : ProgramState := ⟨0, 3, 0, 0, 0, 0, 0, 0⟩
def c2K : Stake := ⟨5, 604800, 0⟩

/-- C2, witness: zero elapsed time yields a reward of zero and the call
still succeeds. -/
theorem C2_claim_stake_reward_formula_witness :
    claim_stake_rewards c2S c2K 604800 = .ok (⟨5, 604800, 0⟩, 0) ∧
    (0 : Nat) = c2K.amount *
      (if c2S.pool_trading_volume > c2S.pool_volume_threshold
       then c2S.stake_reward_rate * c2S.pool_boost_multiplier / 100
       else c2S.stake_reward_rate) * ((604800 : Int) - c2K.last_updated).toNat :=
  ⟨by decide,
   (C2_claim_stake_reward_formula c2S c2K 604800 ⟨5, 604800, 0⟩ 0
      (by decide) (by decide)).1⟩

def c3S : ProgramState := ⟨0, 0, 0, 0, 10, 0, 0, 0⟩
def c3T : TraderStats := ⟨0, 0, 5, 0⟩

/-- C3, counterexample: with `tradeEpochDuration = 10`, a successful claim
at time 100 followed by an immediate repeat at time 100 fails with
`EpochNotEnded`, not `NoPendingRewards` as the claim asserts. -/
theorem C3_counterexample :
    claim_trade_rewards c3S c3T 100 = .ok (⟨0, 0, 0, 100⟩, 5) ∧
    claim_trade_rewards c3S ⟨0, 0, 0, 100⟩ 100 = .err .EpochNotEnded ∧
    claim_trade_rewards c3S ⟨0, 0, 0, 100⟩ 100 ≠ .err .NoPendingRewards :=
  ⟨by decide, by decide, by decide⟩

/-- C3 (amended): every successful `claim_trade_rewards` zeroes the pending
balance, sets `lastClaim` to the current time, and mints exactly the
pre-claim pending amount; an immediate repeat call fails — with
`EpochNotEnded` when `tradeEpochDuration > 0`, and with `NoPendingRewards`
when `tradeEpochDuration ≤ 0`. -/
theorem C3_claim_effects_and_repeat (state : ProgramState) (stats : TraderStats)
    (t : Int) (st' : TraderStats) (r : Nat)
    (h : claim_trade_rewards state stats t = .ok (st', r)) :
    st'.pending_trade_rewards = 0 ∧
    st'.last_claim = t ∧
    r = stats.pending_trade_rewards ∧
    st'.trade_count = stats.trade_count ∧
    st'.total_volume = stats.total_volume ∧
    claim_trade_rewards state st' t =
      (if 0 < state.trade_epoch_duration then .err .EpochNotEnded
       else .err .NoPendingRewards) := by
  obtain ⟨hst, hr, -, -, -, -⟩ := claim_trade_rewards_ok h
  subst hst
  exact ⟨rfl, rfl, hr, rfl, rfl, claim_trade_rewards_repeat state _ t rfl rfl⟩

def c3T1 : TraderStats := ⟨3, 40, 5, 0⟩

/-- C3, witness: concrete claim and repeat with a positive epoch duration. -/
theorem C3_claim_effects_and_repeat_witness :
    claim_trade_rewards c3S c3T1 100 = .ok (⟨3, 40, 0, 100⟩, 5) ∧
    claim_trade_rewards c3S ⟨3, 40, 0, 100⟩ 100 =
      (if (0 : Int) < c3S.trade_epoch_duration then .err .EpochNotEnded
       else .err .NoPendingRewards) :=
  ⟨by decide,
   (C3_claim_effects_and_repeat c3S c3T1 100 ⟨3, 40, 0, 100⟩ 5 (by decide)).2.2.2.2.2⟩

def c4S : ProgramState := ⟨0, 0, 0, 0, 0, 0, 0, 0⟩
def c4T : TraderStats := ⟨0, 0, 5, -(2 ^ 63)⟩

/-- C4: the claim says every arithmetic overflow/underflow fails with
`CalculationError` and never panics or silently wraps.  The code violates
this twice: `claim_trade_rewards` unwraps the checked timestamp
subtraction, so an i64-overflowing difference panics (first conjunct); and
`claim_stake_rewards` casts a negative elapsed time to u64 with a wrapping
`as` cast, silently turning -1 second into 2^64 - 1 reward-seconds (second
conjunct). -/
theorem C4_overflow_handling_violations :
    claim_trade_rewards c4S c4T 1 = .panicked ∧
    claim_stake_rewards ⟨0, 1, 0, 0, 0, 0, 0, 0⟩ ⟨1, 604801, 0⟩ 604800 =
      .ok (⟨1, 604800, 0⟩, 18446744073709551615) :=
  ⟨by decide, by decide⟩

/-- C5: for i64-representable stake-start times, `claim_stake_rewards`
fails with `VestingPeriodNotCompleted` exactly when
`current_time < stakeStart + 604800`, independently of the staked amount. -/
theorem C5_vesting_gate (state : ProgramState) (stake : Stake) (t : Int)
    (hlo : I64_MIN ≤ stake.stake_start)
    (hhi : stake.stake_start + 604800 ≤ I64_MAX) :
    (claim_stake_rewards state stake t = .err .VestingPeriodNotCompleted ↔
      t < stake.stake_start + 604800) ∧
    ∀ a : Nat,
      (claim_stake_rewards state { stake with amount := a } t =
          .err .VestingPeriodNotCompleted ↔
        t < stake.stake_start + 604800) :=
  ⟨claim_stake_rewards_vesting hlo hhi,
   fun _ => claim_stake_rewards_vesting hlo hhi⟩

/-- C5, witness: before the 7-day mark the gate fires with amount 0 and
with amount 42 alike. -/
theorem C5_vesting_gate_witness :
    claim_stake_rewards ⟨0, 0, 0, 0, 0, 0, 0, 0⟩ ⟨0, 0, 0⟩ 0 =
      .err .VestingPeriodNotCompleted ∧
    claim_stake_rewards ⟨0, 0, 0, 0, 0, 0, 0, 0⟩ ⟨42, 0, 0⟩ 0 =
      .err .VestingPeriodNotCompleted :=
  ⟨((C5_vesting_gate ⟨0, 0, 0, 0, 0, 0, 0, 0⟩ ⟨0, 0, 0⟩ 0
      (by decide) (by decide)).1).mpr (by decide),
   ((C5_vesting_gate ⟨0, 0, 0, 0, 0, 0, 0, 0⟩ ⟨0, 0, 0⟩ 0
      (by decide) (by decide)).2 42).mpr (by decide)⟩

/-- C6: with an i64-representable timestamp difference,
`claim_trade_rewards` fails with `EpochNotEnded` whenever the epoch has not
elapsed, and with `NoPendingRewards` whenever the epoch has elapsed but
nothing is pending; in the embedding a failed transaction leaves every
record unchanged. -/
theorem C6_claim_trade_error_cases (state : ProgramState) (stats : TraderStats)
    (t : Int)
    (hlo : I64_MIN ≤ t - stats.last_claim)
    (hhi : t - stats.last_claim ≤ I64_MAX) :
    (t - stats.last_claim < state.trade_epoch_duration →
      claim_trade_rewards state stats t = .err .EpochNotEnded) ∧
    (state.trade_epoch_duration ≤ t - stats.last_claim →
      stats.pending_trade_rewards = 0 →
      claim_trade_rewards state stats t = .err .NoPendingRewards) :=
  ⟨fun hd => claim_trade_rewards_epoch_err hlo hhi hd,
   fun hd hp => claim_trade_rewards_nopending_err hlo hhi hd hp⟩

/-- C6, witness: an early claim fails `EpochNotEnded`; an on-time claim
with zero pending fails `NoPendingRewards`. -/
theorem C6_claim_trade_error_cases_witness :
    claim_trade_rewards c3S ⟨0, 0, 7, 0⟩ 3 = .err .EpochNotEnded ∧
    claim_trade_rewards c3S ⟨0, 0, 0, 0⟩ 50 = .err .NoPendingRewards :=
  ⟨(C6_claim_trade_error_cases c3S ⟨0, 0, 7, 0⟩ 3 (by decide) (by decide)).1
     (by decide),
   (C6_claim_trade_error_cases c3S ⟨0, 0, 0, 0⟩ 50 (by decide) (by decide)).2
     (by decide) rfl⟩

/-- C7: `withdraw_stake` fails with `InsufficientStake` when the request
exceeds the staked balance (leaving the record unchanged, since a failed
transaction aborts), and otherwise decrements `amount` by exactly the
request while `stakeStart` and `lastUpdated` are untouched. -/
theorem C7_withdraw_stake_cases (stake : Stake) (amount : Nat) :
    (stake.amount < amount →
      withdraw_stake stake amount = .err .InsufficientStake) ∧
    (amount ≤ stake.amount →
      withdraw_stake stake amount =
        .ok ({ amount := stake.amount - amount
               last_updated := stake.last_updated
               stake_start := stake.stake_start }, amount)) := by
  constructor
  · intro hlt
    rw [withdraw_stake_spec, if_neg (by omega)]
  · intro hle
    rw [withdraw_stake_spec, if_pos hle]

/-- C7, witness: withdrawing 3 of 5 leaves 2 with timestamps intact;
withdrawing 7 of 5 fails. -/
theorem C7_withdraw_stake_cases_witness :
    withdraw_stake ⟨5, 11, 22⟩ 3 = .ok (⟨2, 11, 22⟩, 3) ∧
    withdraw_stake ⟨5, 11, 22⟩ 7 = .err .InsufficientStake :=
  ⟨(C7_withdraw_stake_cases ⟨5, 11, 22⟩ 3).2 (by decide),
   (C7_withdraw_stake_cases ⟨5, 11, 22⟩ 7).1 (by decide)⟩

/-- C8: every successful `record_trade` with volume `v` bumps
`totalTrades` by 1, `epochTradeVolume` and `poolTradingVolume` by `v`, the
participant's `tradeCount` by 1 and `totalVolume` by `v`, adds the computed
reward to `pendingTradeRewards`, leaves every other `ProgramState` field
unchanged, and sets `lastClaim` to the current time only when it was 0. -/
theorem C8_record_trade_frame (state : ProgramState) (stats : TraderStats)
    (v : Nat) (now : Int) (s' : ProgramState) (st' : TraderStats)
    (h : record_trade state stats v now = .ok (s', st')) :
    s'.total_trades = state.total_trades + 1 ∧
    s'.epoch_trade_volume = state.epoch_trade_volume + v ∧
    s'.pool_trading_volume = state.pool_trading_volume + v ∧
    s'.trade_reward_rate = state.trade_reward_rate ∧
    s'.stake_reward_rate = state.stake_reward_rate ∧
    s'.trade_epoch_duration = state.trade_epoch_duration ∧
    s'.pool_volume_threshold = state.pool_volume_threshold ∧
    s'.pool_boost_multiplier = state.pool_boost_multiplier ∧
    st'.trade_count = stats.trade_count + 1 ∧
    st'.total_volume = stats.total_volume + v ∧
    st'.pending_trade_rewards = stats.pending_trade_rewards +
      v * state.trade_reward_rate *
        (if state.epoch_trade_volume + v < state.pool_volume_threshold
         then 150 else 100) / 100 ∧
    st'.last_claim = (if stats.last_claim = 0 then now else stats.last_claim) := by
  obtain ⟨hs, hst⟩ := record_trade_ok h
  subst hs
  subst hst
  exact ⟨rfl, rfl, rfl, rfl, rfl, rfl, rfl, rfl, rfl, rfl, rfl, rfl⟩

/-- C8, witness: a zero-volume trade is legal, still increments the
counters by 1/0 and initialises `lastClaim`. -/
theorem C8_record_trade_frame_witness :
    record_trade ⟨1, 0, 0, 0, 0, 0, 5, 0⟩ ⟨0, 0, 0, 0⟩ 0 9 =
      .ok (⟨1, 0, 1, 0, 0, 0, 5, 0⟩, ⟨1, 0, 0, 9⟩) ∧
    (⟨1, 0, 0, 9⟩ : TraderStats).last_claim =
      (if (⟨0, 0, 0, 0⟩ : TraderStats).last_claim = 0 then (9 : Int)
       else (⟨0, 0, 0, 0⟩ : TraderStats).last_claim) :=
  ⟨by decide,
   (C8_record_trade_frame ⟨1, 0, 0, 0, 0, 0, 5, 0⟩ ⟨0, 0, 0, 0⟩ 0 9
      ⟨1, 0, 1, 0, 0, 0, 5, 0⟩ ⟨1, 0, 0, 9⟩ (by decide)).2.2.2.2.2.2.2.2.2.2.2⟩

/-- C9: across any sequence of transactions the counters `totalTrades`,
`epochTradeVolume`, `poolTradingVolume`, `tradeCount`, `totalVolume` (all
`Nat`, hence non-negative) never decrease; `pendingTradeRewards` drops only
on a successful trade-reward claim and then only to zero; `Stake.amount`
drops only on a withdrawal (and, being `Nat` with a checked subtraction,
never below zero). -/
theorem C9_counter_invariants (w : World) (ops : List Op) (op : Op) :
    (w.state.total_trades ≤ (runOps w ops).state.total_trades ∧
     w.state.epoch_trade_volume ≤ (runOps w ops).state.epoch_trade_volume ∧
     w.state.pool_trading_volume ≤ (runOps w ops).state.pool_trading_volume ∧
     w.stats.trade_count ≤ (runOps w ops).stats.trade_count ∧
     w.stats.total_volume ≤ (runOps w ops).stats.total_volume) ∧
    ((applyOp w op).stats.pending_trade_rewards <
        w.stats.pending_trade_rewards →
      (∃ t, op = .claimTrade t) ∧
      (applyOp w op).stats.pending_trade_rewards = 0) ∧
    ((applyOp w op).stk.amount < w.stk.amount →
      ∃ a, op = .withdrawStake a) :=
  ⟨runOps_countersLE w ops,
   fun h => pending_decrease_only_claim w op h,
   fun h => stake_decrease_only_withdraw w op h⟩

def c9w : World := ⟨⟨1, 0, 0, 0, 0, 0, 5, 0⟩, ⟨0, 0, 0, 0⟩, ⟨5, 0, 0⟩⟩
def c9ops : List Op := [.recordTrade 2 3, .withdrawStake 1]

/-- C9, witness: the monotonicity statement at a concrete world and
operation sequence. -/
theorem C9_counter_invariants_witness :
    (c9w.state.total_trades ≤ (runOps c9w c9ops).state.total_trades ∧
     c9w.state.epoch_trade_volume ≤ (runOps c9w c9ops).state.epoch_trade_volume ∧
     c9w.state.pool_trading_volume ≤ (runOps c9w c9ops).state.pool_trading_volume ∧
     c9w.stats.trade_count ≤ (runOps c9w c9ops).stats.trade_count ∧
     c9w.stats.total_volume ≤ (runOps c9w c9ops).stats.total_volume) ∧
    ((applyOp c9w (.withdrawStake 1)).stk.amount < c9w.stk.amount →
      ∃ a, (Op.withdrawStake 1) = .withdrawStake a) :=
  ⟨(C9_counter_invariants c9w c9ops (.withdrawStake 1)).1,
   (C9_counter_invariants c9w c9ops (.withdrawStake 1)).2.2⟩

/-- C10: when both failure conditions hold at once (epoch not elapsed and
zero pending), `claim_trade_rewards` reports `EpochNotEnded`, never
`NoPendingRewards` — the epoch gate is evaluated first. -/
theorem C10_epoch_gate_first (state : ProgramState) (stats : TraderStats)
    (t : Int)
    (hlo : I64_MIN ≤ t - stats.last_claim)
    (hhi : t - stats.last_claim ≤ I64_MAX)
    (hd : t - stats.last_claim < state.trade_epoch_duration)
    (_hp : stats.pending_trade_rewards = 0) :
    claim_trade_rewards state stats t = .err .EpochNotEnded ∧
    claim_trade_rewards state stats t ≠ .err .NoPendingRewards := by
  have he := claim_trade_rewards_epoch_err hlo hhi hd
  exact ⟨he, by rw [he]; simp⟩

/-- C10, witness: both gates violated at once, the epoch error wins. -/
theorem C10_epoch_gate_first_witness :
    claim_trade_rewards c3S ⟨0, 0, 0, 0⟩ 3 = .err .EpochNotEnded ∧
    claim_trade_rewards c3S ⟨0, 0, 0, 0⟩ 3 ≠ .err .NoPendingRewards :=
  C10_epoch_gate_first c3S ⟨0, 0, 0, 0⟩ 3 (by decide) (by decide) (by decide) rfl

end LAT
